import Mathlib

/-!
Shallow embedding of the schedule-generation core of
Exam_Schedule_Generator-Python (src/Exam-maker.py, src/init_methods.py).

The embedded code is the engine described by the specification:
the calendar builder, the constraint compiler, the solver dispatch and the
schedule materializer inside generate_schedule (Exam-maker.py lines
1934-2195), the sorting step of generate_preview (lines 2197-2215), and the
Tkinter-variable initialization paths that feed the settings attributes
(init_advanced_settings at lines 3912-3934 and init_methods.py lines 1-23,
reset_form settings block at lines 3752-3766).

Dates are Python datetime.date values, embedded as proleptic-Gregorian
ordinals (date.toordinal); date(1,1,1) has ordinal 1 and weekday() = 0
(Monday), so weekday(o) = (o + 6) % 7 and Sunday is weekday 6.
-/

namespace ExamMaker

/-- A subject row as fetched by get_selected_subjects (Exam-maker.py line 1829):
SELECT id, code, name, type, semester, difficulty, duration FROM subjects.
Tuple index 0 = id, 1 = code, 2 = name, 3 = type, 5 = difficulty. -/
structure Subject where
  id : Nat
  code : String
  name : String
  stype : String
  semester : String
  difficulty : String
  duration : Nat
deriving DecidableEq, Repr

/-- A room row as fetched by get_selected_rooms (Exam-maker.py line 1915):
SELECT id, name, type, capacity FROM rooms.
Tuple index 0 = id, 1 = name, 2 = type. -/
structure Room where
  id : Nat
  name : String
  rtype : String
  capacity : Nat
deriving DecidableEq, Repr

/-- State of one dynamically-created Tkinter variable attribute on the
application object: the attribute may be absent (hasattr is False), present
but raising from .get(), or present with a value. -/
inductive Attr (α : Type) where
  | absent : Attr α
  | raising : Attr α
  | val (a : α) : Attr α
deriving DecidableEq, Repr

/-- The settings attributes of the application object that generate_schedule,
init_advanced_settings and reset_form read or write. -/
structure GenState where
  allow_multiple_exams_var : Attr Bool
  hard_gap_var : Attr Int
  medium_gap_var : Attr Int
  difficult_gap_var : Attr Int
  theory_time_var : Attr String
  practical_time_var : Attr String
deriving DecidableEq, Repr

/-- A freshly constructed application object, before any initializer ran:
none of the dynamic settings attributes exist. -/
def freshGenState : GenState :=
  { allow_multiple_exams_var := .absent
    hard_gap_var := .absent
    medium_gap_var := .absent
    difficult_gap_var := .absent
    theory_time_var := .absent
    practical_time_var := .absent }

/-- The settings writes of init_advanced_settings (Exam-maker.py lines
3927 and 3932; identically init_methods.py lines 16 and 21): it creates
difficult_gap_var = IntVar(2) and medium_gap_var = IntVar(1). It never
touches hard_gap_var. Widget construction is omitted. -/
def init_advanced_settings (st : GenState) : GenState :=
  { st with difficult_gap_var := .val 2, medium_gap_var := .val 1 }

/-- The settings writes of reset_form (Exam-maker.py lines 3752-3766): each
write is guarded by hasattr, so an absent attribute stays absent. -/
def reset_form_settings (st : GenState) : GenState :=
  { st with
    allow_multiple_exams_var :=
      if st.allow_multiple_exams_var = .absent then .absent else .val false
    hard_gap_var :=
      if st.hard_gap_var = .absent then .absent else .val 1
    medium_gap_var :=
      if st.medium_gap_var = .absent then .absent else .val 0
    theory_time_var :=
      if st.theory_time_var = .absent then .absent
      else .val "09:00 AM - 12:00 PM"
    practical_time_var :=
      if st.practical_time_var = .absent then .absent
      else .val "02:00 PM - 05:00 PM" }

/-- Failure outcomes of generate_schedule. All but attributeError and
indexError are the messagebox.showerror + return None paths; attributeError
and indexError are uncaught Python exceptions escaping the call. -/
inductive GenError where
  | noSubjects
  | noRooms
  | invalidRange
  | noValidDays
  | attributeError
  | indexError
  | noFeasible
deriving DecidableEq, Repr

/-- The literal user-facing text of each return-None path (the showerror
message), and the exception class name for the raising paths. Note that no
message mentions any subject: there is no room-compatibility-specific error
in the source. -/
def errorMessage : GenError → String
  | .noSubjects =>
      "No subjects selected for scheduling. Please add subjects in the Subjects tab and select them for scheduling."
  | .noRooms =>
      "No rooms selected for scheduling. Please add rooms in the Rooms tab and select them for scheduling."
  | .invalidRange => "Start date must be before end date."
  | .noValidDays => "No valid days available for scheduling."
  | .attributeError => "AttributeError"
  | .indexError => "IndexError"
  | .noFeasible =>
      "No feasible schedule found with the given constraints. Try relaxing some constraints."

/-- Python date.weekday() on an ordinal: Monday = 0, Sunday = 6. -/
def pyWeekday (o : Nat) : Nat := (o + 6) % 7

/-- The body of the day-list loop of generate_schedule (Exam-maker.py lines
2027-2034): each iteration moves the current date forward one day and keeps
it unless it is a Sunday. The loop guard current <= end_date is expressed by
the iteration count: the loop body runs exactly end_date + 1 - current
times. -/
def buildDaysLoop (current : Nat) : Nat → List Nat
  | 0 => []
  | fuel + 1 =>
    if pyWeekday current = 6 then buildDaysLoop (current + 1) fuel
    else current :: buildDaysLoop (current + 1) fuel

/-- The day list of generate_schedule (Exam-maker.py lines 2021-2034): all
dates from start_date to end_date inclusive whose weekday is not Sunday. -/
def buildDays (start_date end_date : Nat) : List Nat :=
  buildDaysLoop start_date (end_date + 1 - start_date)

/-- Python string comparison on char lists: lexicographic by code point,
with a proper prefix ordered first. Embeds the string half of the Python
tuple comparison in the sort key of generate_preview line 2215. -/
def charListLE : List Char → List Char → Bool
  | [], _ => true
  | _ :: _, [] => false
  | a :: as, b :: bs =>
    if a.toNat < b.toNat then true
    else if a.toNat = b.toNat then charListLE as bs
    else false

/-- Python string less-or-equal. -/
def pyStrLE (a b : String) : Bool := charListLE a.data b.data

/-- One step of Python str.split(sep) over the character list: scan left to
right, cutting at each non-overlapping occurrence of the separator. The
iteration bound is the remaining length (each step consumes at least one
character). -/
def charSplitGo (sep : List Char) : Nat → List Char → List Char → List (List Char)
  | 0, rest, acc => [acc.reverse ++ rest]
  | fuel + 1, l, acc =>
    match l with
    | [] => [acc.reverse]
    | c :: rest =>
      if sep.isPrefixOf (c :: rest) then
        acc.reverse :: charSplitGo sep fuel (List.drop sep.length (c :: rest)) []
      else charSplitGo sep fuel rest (c :: acc)

/-- Python str.split with a non-empty separator, as used on the time-slot
strings (Exam-maker.py lines 2175-2179). -/
def pySplit (s sep : String) : List String :=
  (charSplitGo sep.data (s.data.length + 1) s.data []).map String.mk

/-- The hasattr + try/except read pattern used for allow_multiple_exams_var
(lines 2068-2075), theory_time_var (lines 2153-2160) and practical_time_var
(lines 2162-2169): absent or raising attributes yield the fixed default. -/
def readOr {α : Type} (dflt : α) : Attr α → α
  | .val a => a
  | _ => dflt

/-- An unguarded attribute .get() as in lines 2119 and 2128: an absent
attribute raises AttributeError, and a raising one propagates its
exception. Both escape generate_schedule uncaught. -/
def readAttr {α : Type} : Attr α → Except GenError α
  | .val a => .ok a
  | _ => .error .attributeError

/-- The value the compiled model sees for a gap attribute, when reading it
did not raise. -/
def attrValue {α : Type} : Attr α → Option α
  | .val a => some a
  | _ => none

/-- Inner loop of the difficulty-gap pass (lines 2112-2133) for a fixed
subject1: for each subject2 with a different id, a Hard/Hard pair reads
hard_gap_var and a Medium/Medium pair reads medium_gap_var; either read
raises out of generate_schedule if the attribute is absent or raising. -/
def gapCheckInner (st : GenState) (s1 : Subject) : List Subject → Except GenError Unit
  | [] => .ok ()
  | s2 :: rest =>
    if s1.id ≠ s2.id then
      if s1.difficulty = "Hard" ∧ s2.difficulty = "Hard" then
        match readAttr st.hard_gap_var with
        | .error e => .error e
        | .ok _ => gapCheckInner st s1 rest
      else if s1.difficulty = "Medium" ∧ s2.difficulty = "Medium" then
        match readAttr st.medium_gap_var with
        | .error e => .error e
        | .ok _ => gapCheckInner st s1 rest
      else gapCheckInner st s1 rest
    else gapCheckInner st s1 rest

/-- Outer loop of the difficulty-gap pass (lines 2108-2133): both loops run
over the full selected-subject list. -/
def gapCheck (st : GenState) : List Subject → List Subject → Except GenError Unit
  | [], _ => .ok ()
  | s1 :: rest, subjects =>
    match gapCheckInner st s1 subjects with
    | .error e => .error e
    | .ok _ => gapCheck st rest subjects

/-- The compiled constraint model: the data every constraint added to the
CpModel refers to. hard_gap / medium_gap hold the values of the gap
attributes when they have one (the gap pass has already raised otherwise). -/
structure CpModelData where
  subjects : List Subject
  rooms : List Room
  days : List Nat
  allow_multiple_exams : Bool
  hard_gap : Option Int
  medium_gap : Option Int

/-- Join of the NewIntVar domains (line 2047-2048): every subject's day
variable ranges over [0, len(days)-1] and its room variable over
[0, len(rooms)-1]. -/
def domainsOk (m : CpModelData) (dayA roomA : Nat → Nat) : Bool :=
  m.subjects.all fun s =>
    decide (dayA s.id < m.days.length) && decide (roomA s.id < m.rooms.length)

/-- Constraint family 1 (lines 2052-2065): for every subject and room index,
a Theory subject is forbidden in a Lab room and a Practical subject in a
Classroom room, via subject_room != room_idx. -/
def roomTypeOk (m : CpModelData) (roomA : Nat → Nat) : Bool :=
  m.subjects.all fun s =>
    m.rooms.enum.all fun p =>
      if s.stype = "Theory" ∧ p.2.rtype = "Lab" then decide (roomA s.id ≠ p.1)
      else if s.stype = "Practical" ∧ p.2.rtype = "Classroom" then decide (roomA s.id ≠ p.1)
      else true

/-- Constraint family 2 (lines 2079-2102), the reified no-double-booking
constraints: for every ordered pair of subjects with distinct ids, the
conflict literal (same day and same room) is forced to 0. -/
def conflictFree (m : CpModelData) (dayA roomA : Nat → Nat) : Bool :=
  m.subjects.all fun s1 =>
    m.subjects.all fun s2 =>
      if s1.id ≠ s2.id then
        !(decide (dayA s1.id = dayA s2.id) && decide (roomA s1.id = roomA s2.id))
      else true

/-- Constraint family 3 (lines 2107-2133), the reified difficulty-gap
constraints: for every ordered pair with distinct ids that is Hard/Hard
(resp. Medium/Medium), when the gap value read from the attribute is
positive, one of the two shift inequalities holds. No constraint is added
for any other difficulty combination. -/
def gapsOk (m : CpModelData) (dayA : Nat → Nat) : Bool :=
  m.subjects.all fun s1 =>
    m.subjects.all fun s2 =>
      if s1.id ≠ s2.id then
        if s1.difficulty = "Hard" ∧ s2.difficulty = "Hard" then
          match m.hard_gap with
          | some gap =>
            if gap > 0 then
              decide ((dayA s1.id : Int) + gap ≤ (dayA s2.id : Int)) ||
                decide ((dayA s2.id : Int) + gap ≤ (dayA s1.id : Int))
            else true
          | none => true
        else if s1.difficulty = "Medium" ∧ s2.difficulty = "Medium" then
          match m.medium_gap with
          | some gap =>
            if gap > 0 then
              decide ((dayA s1.id : Int) + gap ≤ (dayA s2.id : Int)) ||
                decide ((dayA s2.id : Int) + gap ≤ (dayA s1.id : Int))
            else true
          | none => true
        else true
      else true

/-- An assignment of the per-subject day and room variables satisfies the
compiled model iff it satisfies the variable domains and the three
constraint families (family 2 only when double-booking is forbidden). -/
def satisfiesModel (m : CpModelData) (dayA roomA : Nat → Nat) : Bool :=
  domainsOk m dayA roomA &&
    roomTypeOk m roomA &&
    (if m.allow_multiple_exams then true else conflictFree m dayA roomA) &&
    gapsOk m dayA

/-- The model generate_schedule hands to the solver, as a function of the
inputs: days from the calendar loop, allow_multiple_exams resolved with
default False, gap attribute values as read in the gap pass. -/
def buildModel (st : GenState) (selected_subjects : List Subject)
    (selected_rooms : List Room) (start_date end_date : Nat) : CpModelData :=
  { subjects := selected_subjects
    rooms := selected_rooms
    days := buildDays start_date end_date
    allow_multiple_exams := readOr false st.allow_multiple_exams_var
    hard_gap := attrValue st.hard_gap_var
    medium_gap := attrValue st.medium_gap_var }

/-- Outcome of cp_model.CpSolver().Solve: OPTIMAL and FEASIBLE both carry the
per-subject-id values of the day and room variables; INFEASIBLE and every
other status (UNKNOWN, MODEL_INVALID, ...) carry nothing. -/
inductive SolveResult where
  | sat (dayA roomA : Nat → Nat) : SolveResult
  | infeasible : SolveResult
  | unknown : SolveResult

/-- The solver backend as a black box: any function from the compiled model
to a solve outcome. The CP-SAT contract (a sat answer satisfies the model)
is taken as a hypothesis where needed, never assumed globally. -/
def Solver : Type := CpModelData → SolveResult

/-- One row of the returned schedule (lines 2181-2190). -/
structure ScheduleItem where
  subject_id : Nat
  subject_code : String
  subject_name : String
  room_id : Nat
  room_name : String
  exam_date : Nat
  start_time : String
  end_time : String
deriving DecidableEq, Repr

/-- Time-slot selection for one subject (lines 2150-2169): the Theory branch
runs exactly when subject[3] == "Theory", otherwise the Practical branch;
each falls back to its fixed default when its variable is absent or raises. -/
def timeSlotFor (st : GenState) (s : Subject) : String :=
  if s.stype = "Theory" then readOr "09:00 AM - 12:00 PM" st.theory_time_var
  else readOr "02:00 PM - 05:00 PM" st.practical_time_var

/-- The time-slot split (lines 2173-2179): split on the separator; with
exactly two parts (or more, via the except branch, which reuses parts 0 and
1) take the first two; with fewer fall back to the fixed strings. -/
def splitTimeSlot (ts : String) : String × String :=
  match pySplit ts " - " with
  | [a, b] => (a, b)
  | a :: b :: _ => (a, b)
  | _ => ("09:00 AM", "12:00 PM")

/-- Materialization of one subject (lines 2142-2190): resolve the solved day
index into days and the solved room index into selected_rooms (a Python list
index, raising IndexError out of range), then attach the kind-based time
window. -/
def materializeItem (st : GenState) (m : CpModelData) (dayA roomA : Nat → Nat)
    (s : Subject) : Except GenError ScheduleItem :=
  match m.days.get? (dayA s.id), m.rooms.get? (roomA s.id) with
  | some d, some r =>
    let slot := splitTimeSlot (timeSlotFor st s)
    .ok { subject_id := s.id
          subject_code := s.code
          subject_name := s.name
          room_id := r.id
          room_name := r.name
          exam_date := d
          start_time := slot.1
          end_time := slot.2 }
  | _, _ => .error .indexError

/-- The materialization loop (lines 2141-2192): one ScheduleItem appended per
selected subject, in selected-subject order; a raised exception aborts the
whole call. -/
def materializeAll (st : GenState) (m : CpModelData) (dayA roomA : Nat → Nat) :
    List Subject → Except GenError (List ScheduleItem)
  | [] => .ok []
  | s :: rest =>
    match materializeItem st m dayA roomA s with
    | .error e => .error e
    | .ok item =>
      match materializeAll st m dayA roomA rest with
      | .error e => .error e
      | .ok out => .ok (item :: out)

/-- generate_schedule (Exam-maker.py lines 1934-2195), from the point where
the selected subjects and rooms are in hand: the empty-input guards, the
date-range guard, the calendar loop, the constraint compilation (whose gap
pass can raise AttributeError), the solver call, and materialization in
selected-subject order. The untyped solver argument stands for the external
CP-SAT engine. -/
def generate_schedule (st : GenState) (selected_subjects : List Subject)
    (selected_rooms : List Room) (start_date end_date : Nat)
    (solver : Solver) : Except GenError (List ScheduleItem) :=
  if selected_subjects.isEmpty then .error .noSubjects
  else if selected_rooms.isEmpty then .error .noRooms
  else if start_date > end_date then .error .invalidRange
  else if (buildDays start_date end_date).isEmpty then .error .noValidDays
  else
    match gapCheck st selected_subjects selected_subjects with
    | .error e => .error e
    | .ok _ =>
      match solver (buildModel st selected_subjects selected_rooms start_date end_date) with
      | .sat dayA roomA =>
        materializeAll st (buildModel st selected_subjects selected_rooms start_date end_date)
          dayA roomA selected_subjects
      | _ => .error .noFeasible

/-- The sort key comparison of generate_preview line 2215 (and
update_calendar_view line 3411): Python tuple order on
(exam_date, start_time), where start_time is compared as a string. -/
def scheduleKeyLE (x y : ScheduleItem) : Bool :=
  decide (x.exam_date < y.exam_date) ||
    (decide (x.exam_date = y.exam_date) && pyStrLE x.start_time y.start_time)

/-- The sorting step applied to a generated schedule before display
(generate_preview line 2215); Python list.sort is a stable merge sort. -/
def sortSchedule (sched : List ScheduleItem) : List ScheduleItem :=
  sched.mergeSort scheduleKeyLE

/-- generate_preview (lines 2197-2228), reduced to its data path: generate
the schedule, then sort it by (exam_date, start_time) for display. -/
def generate_preview (st : GenState) (selected_subjects : List Subject)
    (selected_rooms : List Room) (start_date end_date : Nat)
    (solver : Solver) : Except GenError (List ScheduleItem) :=
  (generate_schedule st selected_subjects selected_rooms start_date end_date solver).map
    sortSchedule

/-- Digit-string parsing (the value of Python int() on an all-digit
string). -/
def digitChars? (l : List Char) : Option Nat :=
  if l ≠ [] ∧ l.all (fun c => c.isDigit) then
    some (l.foldl (fun n c => n * 10 + (c.toNat - 48)) 0)
  else none

/-- Spec reading of a start-time string such as 09:00 AM as a time of day,
in minutes after midnight on the 12-hour clock. Used only to compare the
code's string ordering against the ordering the spec asks for. -/
def timeOfDayMinutes (t : String) : Nat :=
  match pySplit t " " with
  | [hm, ap] =>
    match pySplit hm ":" with
    | [h, mi] =>
      let hn := (digitChars? h.data).getD 0
      let mn := (digitChars? mi.data).getD 0
      let h24 := if ap = "PM" then (if hn = 12 then 12 else hn + 12)
                 else (if hn = 12 then 0 else hn)
      h24 * 60 + mn
    | _ => 0
  | _ => 0

/-! ### Concrete fixtures used by witnesses and counterexamples -/

def demoTheory : Subject := ⟨1, "TH1", "Theory One", "Theory", "Sem1", "Easy", 180⟩

def demoPractical : Subject := ⟨2, "PR1", "Practical One", "Practical", "Sem1", "Easy", 180⟩

def demoHard1 : Subject := ⟨3, "H1", "Hard One", "Theory", "Sem1", "Hard", 180⟩

def demoHard2 : Subject := ⟨4, "H2", "Hard Two", "Theory", "Sem1", "Hard", 180⟩

def demoClassroom : Room := ⟨1, "Room A", "Classroom", 40⟩

def demoLab : Room := ⟨2, "Lab B", "Lab", 30⟩

/-- A backend that returns the given day and room values with a FEASIBLE
status. -/
def solverOf (dayA roomA : Nat → Nat) : Solver := fun _ => .sat dayA roomA

/-- A backend that reports INFEASIBLE. -/
def solverInfeasible : Solver := fun _ => .infeasible

/-- A backend that stops with status UNKNOWN (for example, a time limit). -/
def solverUnknown : Solver := fun _ => .unknown

/-- Assignment placing every subject on the first day. -/
def demoDayA : Nat → Nat := fun _ => 0

/-- Assignment placing subject id 1 in room index 0 and the others in room
index 1. -/
def demoRoomA : Nat → Nat := fun sid => if sid = 1 then 0 else 1

/-- The item generate_schedule materializes for demoTheory on day ordinal 1
in demoClassroom with default settings. -/
def demoTheoryItem : ScheduleItem :=
  ⟨1, "TH1", "Theory One", 1, "Room A", 1, "09:00 AM", "12:00 PM"⟩

/-- The item generate_schedule materializes for demoPractical on day ordinal
1 in demoLab with default settings. -/
def demoPracticalItem : ScheduleItem :=
  ⟨2, "PR1", "Practical One", 2, "Lab B", 1, "02:00 PM", "05:00 PM"⟩

/-- The schedule materialized for the two demo subjects, in selected-subject
order (before any sorting). -/
def demoSched : List ScheduleItem := [demoTheoryItem, demoPracticalItem]

/-- A settings state whose gap attributes exist: hard gap 2 days, medium gap
1 day. -/
def demoGapState : GenState :=
  { freshGenState with hard_gap_var := .val 2, medium_gap_var := .val 1 }

/-- Assignment placing subject id 3 on day index 0 and the others on day
index 2. -/
def demoDay5A : Nat → Nat := fun sid => if sid = 3 then 0 else 2

/-- Assignment placing every subject in room index 0. -/
def demoRoom5A : Nat → Nat := fun _ => 0

/-- The difficulty-gap constraint family exactly as the specification words
it (section 4.2 item 3): one clause quantifying over pairs both rated Hard,
one over pairs both rated Medium, and no clause at all for a Hard/Medium
cross pair or any pair involving an Easy subject. Stated to be compared
against gapsOk, the family compiled from the source. -/
def specGapsOk (m : CpModelData) (dayA : Nat → Nat) : Prop :=
  (∀ s1 ∈ m.subjects, ∀ s2 ∈ m.subjects, s1.id ≠ s2.id →
    s1.difficulty = "Hard" → s2.difficulty = "Hard" →
    ∀ g : Int, m.hard_gap = some g → 0 < g →
      ((dayA s1.id : Int) + g ≤ (dayA s2.id : Int) ∨
        (dayA s2.id : Int) + g ≤ (dayA s1.id : Int))) ∧
  (∀ s1 ∈ m.subjects, ∀ s2 ∈ m.subjects, s1.id ≠ s2.id →
    s1.difficulty = "Medium" → s2.difficulty = "Medium" →
    ∀ g : Int, m.medium_gap = some g → 0 < g →
      ((dayA s1.id : Int) + g ≤ (dayA s2.id : Int) ∨
        (dayA s2.id : Int) + g ≤ (dayA s1.id : Int)))

/-! ### Calendar builder lemmas -/

theorem buildDaysLoop_eq_filter (f c : Nat) :
    buildDaysLoop c f = (List.range' c f).filter (fun d => decide (pyWeekday d ≠ 6)) := by
  induction f generalizing c with
  | zero => rfl
  | succ n ih =>
    rw [List.range'_succ]
    by_cases h : pyWeekday c = 6 <;>
      simp [buildDaysLoop, h, ih, List.filter_cons]

theorem mem_buildDays {sd ed d : Nat} :
    d ∈ buildDays sd ed ↔ (sd ≤ d ∧ d ≤ ed ∧ pyWeekday d ≠ 6) := by
  unfold buildDays
  rw [buildDaysLoop_eq_filter]
  simp only [List.mem_filter, List.mem_range', decide_eq_true_eq]
  constructor
  · rintro ⟨⟨i, hi, rfl⟩, hw⟩
    exact ⟨by omega, by omega, hw⟩
  · rintro ⟨h1, h2, hw⟩
    exact ⟨⟨d - sd, by omega, by omega⟩, hw⟩

theorem buildDays_sorted (sd ed : Nat) : List.Sorted (· < ·) (buildDays sd ed) := by
  unfold buildDays
  rw [buildDaysLoop_eq_filter]
  exact (List.pairwise_lt_range' sd (ed + 1 - sd) 1 (by simp)).filter _

theorem buildDays_nodup (sd ed : Nat) : (buildDays sd ed).Nodup :=
  (buildDays_sorted sd ed).nodup

/-- In a strictly increasing list of naturals, positions that are k apart
hold values at least k apart. -/
theorem sorted_getD_add_le {l : List Nat} (h : List.Sorted (· < ·) l) :
    ∀ i j : Nat, i ≤ j → j < l.length → l.getD i 0 + (j - i) ≤ l.getD j 0 := by
  induction l with
  | nil => intro i j _ hj; simp at hj
  | cons x xs ih =>
    intro i j hij hj
    match i, j with
    | 0, 0 => simp
    | 0, j + 1 =>
      cases xs with
      | nil => simp at hj
      | cons y ys =>
        have h1 : x < y := (List.sorted_cons.mp h).1 y (by simp)
        have hIH := ih (List.Sorted.of_cons h) 0 j (Nat.zero_le _) (by simpa using hj)
        simp only [List.getD_cons_zero, List.getD_cons_succ, Nat.sub_zero] at hIH ⊢
        omega
    | i + 1, j + 1 =>
      have hIH := ih (List.Sorted.of_cons h) i j (by omega) (by simpa using hj)
      simp only [List.getD_cons_succ]
      have he : j + 1 - (i + 1) = j - i := by omega
      rw [he]
      exact hIH

/-! ### Gap pass lemmas -/

theorem readAttr_error {α : Type} {a : Attr α} {e : GenError}
    (h : readAttr a = .error e) : e = .attributeError := by
  cases a <;> simp_all [readAttr]

theorem gapCheckInner_ok_or_error (st : GenState) (s1 : Subject) :
    ∀ l, gapCheckInner st s1 l = .ok () ∨ gapCheckInner st s1 l = .error .attributeError := by
  intro l
  induction l with
  | nil => left; rfl
  | cons s2 rest ih =>
    rw [gapCheckInner]
    split
    · split
      · cases hr : readAttr st.hard_gap_var with
        | error e => right; rw [readAttr_error hr]
        | ok v => exact ih
      · split
        · cases hr : readAttr st.medium_gap_var with
          | error e => right; rw [readAttr_error hr]
          | ok v => exact ih
        · exact ih
    · exact ih

theorem gapCheck_ok_or_error (st : GenState) :
    ∀ l all, gapCheck st l all = .ok () ∨ gapCheck st l all = .error .attributeError := by
  intro l
  induction l with
  | nil => intro all; left; rfl
  | cons s1 rest ih =>
    intro all
    rw [gapCheck]
    cases hinner : gapCheckInner st s1 all with
    | error e =>
      rcases gapCheckInner_ok_or_error st s1 all with h | h <;> rw [hinner] at h
      · exact absurd h (by simp)
      · right; exact h
    | ok v => exact ih all

theorem gapCheckInner_ok_no_absent_hard {st : GenState} {s1 : Subject} :
    ∀ {l}, gapCheckInner st s1 l = .ok () → ∀ s2 ∈ l,
      s1.id ≠ s2.id → s1.difficulty = "Hard" → s2.difficulty = "Hard" →
      st.hard_gap_var ≠ .absent := by
  intro l
  induction l with
  | nil => intro _ s2 h; simp at h
  | cons s2h rest ih =>
    intro hok s2 hmem hne hd1 hd2 habs
    rw [List.mem_cons] at hmem
    rw [gapCheckInner] at hok
    rcases hmem with rfl | hmem
    · rw [if_pos hne, if_pos ⟨hd1, hd2⟩, habs] at hok
      simp [readAttr] at hok
    · split at hok
      · split at hok
        · split at hok
          · simp at hok
          · exact ih hok s2 hmem hne hd1 hd2 habs
        · split at hok
          · split at hok
            · simp at hok
            · exact ih hok s2 hmem hne hd1 hd2 habs
          · exact ih hok s2 hmem hne hd1 hd2 habs
      · exact ih hok s2 hmem hne hd1 hd2 habs

theorem gapCheck_ok_inner {st : GenState} :
    ∀ {l all}, gapCheck st l all = .ok () → ∀ s1 ∈ l, gapCheckInner st s1 all = .ok () := by
  intro l
  induction l with
  | nil => intro all _ s1 h; simp at h
  | cons s1h rest ih =>
    intro all hok s1 hmem
    rw [gapCheck] at hok
    cases hinner : gapCheckInner st s1h all with
    | error e => rw [hinner] at hok; simp at hok
    | ok v =>
      rw [hinner] at hok
      rw [List.mem_cons] at hmem
      rcases hmem with rfl | hmem
      · cases v; exact hinner
      · exact ih hok s1 hmem

/-- With a Hard pair among the subjects and the hard_gap_var attribute
absent, the gap pass raises. -/
theorem gapCheck_error_of_hard_pair {st : GenState} {subs : List Subject}
    {s1 s2 : Subject} (hm1 : s1 ∈ subs) (hm2 : s2 ∈ subs) (hne : s1.id ≠ s2.id)
    (hd1 : s1.difficulty = "Hard") (hd2 : s2.difficulty = "Hard")
    (habs : st.hard_gap_var = .absent) :
    gapCheck st subs subs = .error .attributeError := by
  rcases gapCheck_ok_or_error st subs subs with h | h
  · exact absurd habs
      (gapCheckInner_ok_no_absent_hard (gapCheck_ok_inner h s1 hm1) s2 hm2 hne hd1 hd2)
  · exact h

/-! ### generate_schedule branch lemma -/

/-- With nonempty inputs, a valid range and a nonempty day list,
generate_schedule reduces to the gap pass followed by the solver dispatch. -/
theorem generate_schedule_eq_branch (st : GenState) (subs : List Subject)
    (rooms : List Room) (sd ed : Nat) (solver : Solver)
    (hsubs : subs ≠ []) (hrooms : rooms ≠ []) (hrange : sd ≤ ed)
    (hdays : buildDays sd ed ≠ []) :
    generate_schedule st subs rooms sd ed solver =
      match gapCheck st subs subs with
      | .error e => .error e
      | .ok _ =>
        match solver (buildModel st subs rooms sd ed) with
        | .sat dayA roomA => materializeAll st (buildModel st subs rooms sd ed) dayA roomA subs
        | _ => .error .noFeasible := by
  have h1 : subs.isEmpty = false := by simpa [List.isEmpty_iff] using hsubs
  have h2 : rooms.isEmpty = false := by simpa [List.isEmpty_iff] using hrooms
  have h3 : ¬(sd > ed) := by omega
  have h4 : (buildDays sd ed).isEmpty = false := by simpa [List.isEmpty_iff] using hdays
  simp only [generate_schedule, h1, h2, h4, Bool.false_eq_true, if_false, if_neg h3]

/-- C8. For every calendar window with start date at most the end date, the
built day sequence consists of exactly the dates in the window whose weekday
is not Sunday, in strictly increasing order. -/
theorem buildDays_calendar_correct (sd ed : Nat) (_h : sd ≤ ed) :
    (∀ d, d ∈ buildDays sd ed ↔ (sd ≤ d ∧ d ≤ ed ∧ pyWeekday d ≠ 6)) ∧
    List.Sorted (· < ·) (buildDays sd ed) :=
  ⟨fun _ => mem_buildDays, buildDays_sorted sd ed⟩

/-- Witness for C8 on the window from ordinal 1 (a Monday) to ordinal 9. -/
theorem buildDays_calendar_correct_witness :
    (1 : Nat) ≤ 9 ∧
    ((∀ d, d ∈ buildDays 1 9 ↔ (1 ≤ d ∧ d ≤ 9 ∧ pyWeekday d ≠ 6)) ∧
      List.Sorted (· < ·) (buildDays 1 9)) :=
  ⟨by decide, buildDays_calendar_correct 1 9 (by decide)⟩

/-- C3. With at least two distinct-id Hard-rated subjects selected,
generate_schedule reads hard_gap_var; since no initialization path creates
that attribute (init_advanced_settings creates difficult_gap_var instead and
reset_form only writes it under hasattr), the run raises AttributeError and
yields no schedule, for every solver backend. -/
theorem hard_gap_attribute_error (st : GenState) (subs : List Subject)
    (rooms : List Room) (sd ed : Nat) (s1 s2 : Subject)
    (hm1 : s1 ∈ subs) (hm2 : s2 ∈ subs) (hne : s1.id ≠ s2.id)
    (hd1 : s1.difficulty = "Hard") (hd2 : s2.difficulty = "Hard")
    (habs : st.hard_gap_var = .absent)
    (hrooms : rooms ≠ []) (hrange : sd ≤ ed) (hdays : buildDays sd ed ≠ []) :
    (∀ solver : Solver, generate_schedule st subs rooms sd ed solver = .error .attributeError) ∧
    (init_advanced_settings freshGenState).hard_gap_var = .absent ∧
    (reset_form_settings (init_advanced_settings freshGenState)).hard_gap_var = .absent := by
  refine ⟨fun solver => ?_, rfl, rfl⟩
  rw [generate_schedule_eq_branch st subs rooms sd ed solver
    (List.ne_nil_of_mem hm1) hrooms hrange hdays]
  rw [gapCheck_error_of_hard_pair hm1 hm2 hne hd1 hd2 habs]

/-- Witness for C3: two Hard subjects, the fresh (never-initialized)
attribute state, a two-day window starting at ordinal 1. -/
theorem hard_gap_attribute_error_witness :
    demoHard1 ∈ [demoHard1, demoHard2] ∧
    demoHard2 ∈ [demoHard1, demoHard2] ∧
    demoHard1.id ≠ demoHard2.id ∧
    demoHard1.difficulty = "Hard" ∧
    demoHard2.difficulty = "Hard" ∧
    freshGenState.hard_gap_var = .absent ∧
    generate_schedule freshGenState [demoHard1, demoHard2] [demoClassroom] 1 2
      solverInfeasible = .error .attributeError :=
  ⟨by decide, by decide, by decide, by decide, by decide, by decide,
    (hard_gap_attribute_error freshGenState [demoHard1, demoHard2] [demoClassroom] 1 2
      demoHard1 demoHard2 (by decide) (by decide) (by decide) (by decide) (by decide)
      (by decide) (by decide) (by decide) (by decide)).1 solverInfeasible⟩

/-- C2 counterexample. The issued claim says a backend that stops without a
proof (UNKNOWN) is reported distinctly from a proved INFEASIBLE. In the code
both statuses fall into the same else branch of lines 2139-2195: on the same
input, a backend answering UNKNOWN and one answering INFEASIBLE produce the
identical generic no-feasible-schedule outcome; nor does Solve receive any
time or step budget (line 2137 passes only the model). -/
theorem solver_status_collapsed_counterexample :
    generate_schedule freshGenState [demoTheory] [demoClassroom] 1 1 solverUnknown =
      generate_schedule freshGenState [demoTheory] [demoClassroom] 1 1 solverInfeasible ∧
    generate_schedule freshGenState [demoTheory] [demoClassroom] 1 1 solverUnknown =
      .error .noFeasible :=
  ⟨rfl, rfl⟩

/-- C2 amended. generate_schedule passes no budget to the backend and maps a
backend UNKNOWN outcome to exactly the same result as a backend INFEASIBLE
outcome: with well-formed inputs, the generic no-feasible error. -/
theorem solver_status_collapsed (st : GenState) (subs : List Subject)
    (rooms : List Room) (sd ed : Nat) :
    (∀ solver1 solver2 : Solver,
      solver1 (buildModel st subs rooms sd ed) = .unknown →
      solver2 (buildModel st subs rooms sd ed) = .infeasible →
      generate_schedule st subs rooms sd ed solver1 =
        generate_schedule st subs rooms sd ed solver2) ∧
    (∀ solver : Solver, solver (buildModel st subs rooms sd ed) = .unknown →
      subs ≠ [] → rooms ≠ [] → sd ≤ ed → buildDays sd ed ≠ [] →
      gapCheck st subs subs = .ok () →
      generate_schedule st subs rooms sd ed solver = .error .noFeasible) := by
  constructor
  · intro solver1 solver2 h1 h2
    unfold generate_schedule
    cases hs : subs.isEmpty <;> simp only [hs, Bool.false_eq_true, if_false, if_true]
    cases hr : rooms.isEmpty <;> simp only [hr, Bool.false_eq_true, if_false, if_true]
    by_cases hd : sd > ed
    · simp only [if_pos hd]
    · simp only [if_neg hd]
      cases he : (buildDays sd ed).isEmpty <;>
        simp only [he, Bool.false_eq_true, if_false, if_true]
      cases hg : gapCheck st subs subs
      · rfl
      · rw [h1, h2]
  · intro solver hu hsubs hrooms hrange hdays hok
    rw [generate_schedule_eq_branch st subs rooms sd ed solver hsubs hrooms hrange hdays,
      hok, hu]

/-- Witness for C2 amended, on a one-subject one-room one-day input. -/
theorem solver_status_collapsed_witness :
    generate_schedule freshGenState [demoTheory] [demoClassroom] 1 1 solverUnknown =
      .error .noFeasible :=
  (solver_status_collapsed freshGenState [demoTheory] [demoClassroom] 1 1).2
    solverUnknown rfl (by decide) (by decide) (by decide) (by decide) rfl

/-- C1 counterexample. The issued claim says a subject with zero compatible
rooms makes generation fail with a NoCompatibleRoom error naming the
subject. The code has no such error: on one Practical subject with only a
Classroom room, the run ends in the generic no-feasible outcome, whose
message is a fixed string naming no subject. -/
theorem no_compatible_room_generic_counterexample :
    demoPractical.stype = "Practical" ∧
    demoClassroom.rtype = "Classroom" ∧
    generate_schedule freshGenState [demoPractical] [demoClassroom] 1 1 solverInfeasible =
      .error .noFeasible ∧
    errorMessage .noFeasible =
      "No feasible schedule found with the given constraints. Try relaxing some constraints." :=
  ⟨rfl, rfl, rfl, rfl⟩

/-- C1 amended. When a selected subject has zero compatible rooms under the
type rule, the compiled constraints are unsatisfiable, so a sound backend
cannot answer sat, and the run ends in the same generic no-feasible error as
any other infeasible model; no subject-naming error exists. -/
theorem no_compatible_room_generic (st : GenState) (subs : List Subject)
    (rooms : List Room) (sd ed : Nat) (solver : Solver) (s : Subject)
    (hmem : s ∈ subs)
    (hbad : (s.stype = "Theory" ∧ ∀ r ∈ rooms, r.rtype = "Lab") ∨
            (s.stype = "Practical" ∧ ∀ r ∈ rooms, r.rtype = "Classroom")) :
    (∀ dayA roomA, satisfiesModel (buildModel st subs rooms sd ed) dayA roomA = false) ∧
    ((solver (buildModel st subs rooms sd ed) = .infeasible ∨
      solver (buildModel st subs rooms sd ed) = .unknown) →
      rooms ≠ [] → sd ≤ ed → buildDays sd ed ≠ [] →
      gapCheck st subs subs = .ok () →
      generate_schedule st subs rooms sd ed solver = .error .noFeasible) := by
  constructor
  · intro dayA roomA
    rw [Bool.eq_false_iff]
    intro h
    simp only [satisfiesModel, Bool.and_eq_true] at h
    obtain ⟨⟨⟨hdom, hroom⟩, _⟩, _⟩ := h
    rw [domainsOk, List.all_eq_true] at hdom
    have hs := hdom s hmem
    rw [Bool.and_eq_true, decide_eq_true_eq, decide_eq_true_eq] at hs
    set k := roomA s.id with hk
    have hklt : k < rooms.length := hs.2
    have hget : rooms.get? k = some (rooms.get ⟨k, hklt⟩) := List.get?_eq_get hklt
    have hmr : rooms.get ⟨k, hklt⟩ ∈ rooms := List.get_mem rooms k hklt
    rw [roomTypeOk, List.all_eq_true] at hroom
    have hr := hroom s hmem
    rw [List.all_eq_true] at hr
    have hpair : (k, rooms.get ⟨k, hklt⟩) ∈ rooms.enum := by
      rw [List.mk_mem_enum_iff_getElem?, ← List.get?_eq_getElem?]
      exact hget
    have hbody := hr _ hpair
    rcases hbad with ⟨hth, hall⟩ | ⟨hpr, hall⟩
    · rw [if_pos ⟨hth, hall _ hmr⟩, decide_eq_true_eq] at hbody
      exact hbody hk.symm
    · have hnot : ¬(s.stype = "Theory" ∧ (rooms.get ⟨k, hklt⟩).rtype = "Lab") := by
        intro hcon
        rw [hpr] at hcon
        exact absurd hcon.1 (by decide)
      rw [if_neg hnot, if_pos ⟨hpr, hall _ hmr⟩, decide_eq_true_eq] at hbody
      exact hbody hk.symm
  · intro hsolve hrooms hrange hdays hok
    rw [generate_schedule_eq_branch st subs rooms sd ed solver
      (List.ne_nil_of_mem hmem) hrooms hrange hdays, hok]
    rcases hsolve with h | h <;> rw [h]

/-- Witness for C1 amended: one Practical subject, one Classroom room. -/
theorem no_compatible_room_generic_witness :
    satisfiesModel (buildModel freshGenState [demoPractical] [demoClassroom] 1 1)
      demoDayA demoRoomA = false ∧
    generate_schedule freshGenState [demoPractical] [demoClassroom] 1 1 solverInfeasible =
      .error .noFeasible := by
  have h := no_compatible_room_generic freshGenState [demoPractical] [demoClassroom] 1 1
    solverInfeasible demoPractical (by decide) (Or.inr ⟨by decide, by decide⟩)
  exact ⟨h.1 demoDayA demoRoomA, h.2 (Or.inl rfl) (by decide) (by decide) (by decide) rfl⟩

/-! ### Materialization and solve-path inversion lemmas -/

theorem materializeItem_ok {st : GenState} {m : CpModelData} {dayA roomA : Nat → Nat}
    {s : Subject} {item : ScheduleItem}
    (h : materializeItem st m dayA roomA s = .ok item) :
    ∃ d r, m.days.get? (dayA s.id) = some d ∧ m.rooms.get? (roomA s.id) = some r ∧
      item = { subject_id := s.id, subject_code := s.code, subject_name := s.name,
               room_id := r.id, room_name := r.name, exam_date := d,
               start_time := (splitTimeSlot (timeSlotFor st s)).1,
               end_time := (splitTimeSlot (timeSlotFor st s)).2 } := by
  rw [materializeItem] at h
  cases hd : m.days.get? (dayA s.id) with
  | none => rw [hd] at h; simp at h
  | some d =>
    cases hr : m.rooms.get? (roomA s.id) with
    | none => rw [hd, hr] at h; simp at h
    | some r =>
      rw [hd, hr] at h
      simp only [Except.ok.injEq] at h
      exact ⟨d, r, rfl, rfl, h.symm⟩

theorem materializeAll_ok {st : GenState} {m : CpModelData} {dayA roomA : Nat → Nat} :
    ∀ {l : List Subject} {out : List ScheduleItem},
      materializeAll st m dayA roomA l = .ok out →
      out.length = l.length ∧
      ∀ i, i < l.length → ∃ s item, l.get? i = some s ∧
        materializeItem st m dayA roomA s = .ok item ∧ out.get? i = some item := by
  intro l
  induction l with
  | nil =>
    intro out h
    rw [materializeAll] at h
    cases h
    exact ⟨rfl, fun i hi => absurd hi (by simp)⟩
  | cons s rest ih =>
    intro out h
    rw [materializeAll] at h
    cases hitem : materializeItem st m dayA roomA s with
    | error e => rw [hitem] at h; simp at h
    | ok item =>
      rw [hitem] at h
      cases hrest : materializeAll st m dayA roomA rest with
      | error e => rw [hrest] at h; simp at h
      | ok out' =>
        rw [hrest] at h
        cases h
        obtain ⟨hlen, hall⟩ := ih hrest
        refine ⟨by simp [hlen], ?_⟩
        intro i hi
        match i with
        | 0 => exact ⟨s, item, rfl, hitem, rfl⟩
        | i + 1 =>
          obtain ⟨s', item', ha, hb, hc⟩ := hall i (by simpa using hi)
          exact ⟨s', item', ha, hb, hc⟩

theorem generate_schedule_ok_inv {st : GenState} {subs : List Subject}
    {rooms : List Room} {sd ed : Nat} {solver : Solver} {sched : List ScheduleItem}
    (h : generate_schedule st subs rooms sd ed solver = .ok sched) :
    gapCheck st subs subs = .ok () ∧
    ∃ dayA roomA, solver (buildModel st subs rooms sd ed) = .sat dayA roomA ∧
      materializeAll st (buildModel st subs rooms sd ed) dayA roomA subs = .ok sched := by
  unfold generate_schedule at h
  by_cases h1 : subs.isEmpty = true
  · rw [if_pos h1] at h; simp at h
  · rw [if_neg h1] at h
    by_cases h2 : rooms.isEmpty = true
    · rw [if_pos h2] at h; simp at h
    · rw [if_neg h2] at h
      by_cases h3 : sd > ed
      · rw [if_pos h3] at h; simp at h
      · rw [if_neg h3] at h
        by_cases h4 : (buildDays sd ed).isEmpty = true
        · rw [if_pos h4] at h; simp at h
        · rw [if_neg h4] at h
          split at h
          · simp at h
          · rename_i u heq
            cases u
            split at h
            · rename_i dayA roomA heq2
              exact ⟨heq, dayA, roomA, heq2, h⟩
            · simp at h

theorem satisfiesModel_parts {m : CpModelData} {dayA roomA : Nat → Nat}
    (h : satisfiesModel m dayA roomA = true) :
    domainsOk m dayA roomA = true ∧ roomTypeOk m roomA = true ∧
    (m.allow_multiple_exams = false → conflictFree m dayA roomA = true) ∧
    gapsOk m dayA = true := by
  simp only [satisfiesModel, Bool.and_eq_true] at h
  obtain ⟨⟨⟨h1, h2⟩, h3⟩, h4⟩ := h
  refine ⟨h1, h2, ?_, h4⟩
  intro hallow
  rw [hallow] at h3
  simpa using h3

theorem nodup_map_get_ne {α β : Type} (f : α → β) {l : List α}
    (h : (l.map f).Nodup) {i j : Nat} (hi : i < l.length) (hj : j < l.length)
    (hij : i ≠ j) : f (l.get ⟨i, hi⟩) ≠ f (l.get ⟨j, hj⟩) := by
  intro he
  have hi' : i < (l.map f).length := by simpa using hi
  have hj' : j < (l.map f).length := by simpa using hj
  have hmap : (l.map f).get ⟨i, hi'⟩ = (l.map f).get ⟨j, hj'⟩ := by
    simpa [List.get_map] using he
  have := (List.Nodup.get_inj_iff h).mp hmap
  exact hij (by simpa using this)

theorem get?_inj_of_nodup {α : Type} {l : List α} (h : l.Nodup) {a b : Nat} {v : α}
    (ha : l.get? a = some v) (hb : l.get? b = some v) : a = b := by
  obtain ⟨ha', hga⟩ := List.get?_eq_some.mp ha
  obtain ⟨hb', hgb⟩ := List.get?_eq_some.mp hb
  have heq : l.get ⟨a, ha'⟩ = l.get ⟨b, hb'⟩ := by rw [hga, hgb]
  have := (List.Nodup.get_inj_iff h).mp heq
  simpa using this

/-- From one compiled disjunctive gap constraint on day indices to a gap
between the concrete dates those indices resolve to. -/
theorem gap_from_disjunction {days : List Nat} (hsorted : List.Sorted (· < ·) days)
    {a b : Nat} (hb : b < days.length) (ha : a < days.length) {g : Int} (hg : 0 < g)
    (hdisj : (a : Int) + g ≤ (b : Int) ∨ (b : Int) + g ≤ (a : Int))
    {da db : Nat} (hda : days.get? a = some da) (hdb : days.get? b = some db) :
    g ≤ |(da : Int) - (db : Int)| := by
  have hda' : days.getD a 0 = da := by rw [List.getD_eq_get?, hda]; rfl
  have hdb' : days.getD b 0 = db := by rw [List.getD_eq_get?, hdb]; rfl
  rcases hdisj with h | h
  · have hab : a ≤ b := by omega
    have hstep := sorted_getD_add_le hsorted a b hab hb
    rw [hda', hdb'] at hstep
    rw [abs_sub_comm, abs_of_nonneg (by omega : (0 : Int) ≤ (db : Int) - (da : Int))]
    omega
  · have hab : b ≤ a := by omega
    have hstep := sorted_getD_add_le hsorted b a hab ha
    rw [hdb', hda'] at hstep
    rw [abs_of_nonneg (by omega : (0 : Int) ≤ (da : Int) - (db : Int))]
    omega

/-- C7. Every ScheduleItem of a generated schedule is built for a selected
subject and an assigned room such that the subject is not a Theory subject
in a Lab room and not a Practical subject in a Classroom room, provided the
backend only answers sat with assignments satisfying the compiled model. -/
theorem room_type_soundness (st : GenState) (subs : List Subject)
    (rooms : List Room) (sd ed : Nat) (solver : Solver) (sched : List ScheduleItem)
    (h1 : generate_schedule st subs rooms sd ed solver = .ok sched)
    (hsound : ∀ dA rA, solver (buildModel st subs rooms sd ed) = .sat dA rA →
      satisfiesModel (buildModel st subs rooms sd ed) dA rA = true)
    (item : ScheduleItem) (hitem : item ∈ sched) :
    ∃ s ∈ subs, ∃ r ∈ rooms,
      item.subject_id = s.id ∧ item.room_id = r.id ∧
      ¬(s.stype = "Theory" ∧ r.rtype = "Lab") ∧
      ¬(s.stype = "Practical" ∧ r.rtype = "Classroom") := by
  obtain ⟨hok, dayA, roomA, hsat, hmat⟩ := generate_schedule_ok_inv h1
  obtain ⟨hdom, hroomt, _, _⟩ := satisfiesModel_parts (hsound dayA roomA hsat)
  obtain ⟨hlen, hall⟩ := materializeAll_ok hmat
  obtain ⟨i, hi⟩ := List.mem_iff_get?.mp hitem
  obtain ⟨hilt, _⟩ := List.get?_eq_some.mp hi
  rw [hlen] at hilt
  obtain ⟨s, item', hs, hmi, hout⟩ := hall i hilt
  rw [hi] at hout
  cases hout
  obtain ⟨d, r, hd, hr, hitemeq⟩ := materializeItem_ok hmi
  subst hitemeq
  refine ⟨s, List.get?_mem hs, r, List.get?_mem hr, rfl, rfl, ?_, ?_⟩
  all_goals {
    rw [roomTypeOk, List.all_eq_true] at hroomt
    have hrow := hroomt s (List.get?_mem hs)
    rw [List.all_eq_true] at hrow
    have hpair : (roomA s.id, r) ∈ (buildModel st subs rooms sd ed).rooms.enum := by
      rw [List.mk_mem_enum_iff_getElem?, ← List.get?_eq_getElem?]
      exact hr
    have hbody := hrow _ hpair
    dsimp only at hbody
    first
    | · rintro ⟨hth, hlab⟩
        rw [if_pos ⟨hth, hlab⟩, decide_eq_true_eq] at hbody
        exact hbody rfl
    | · rintro ⟨hpr, hcl⟩
        have hnot : ¬(s.stype = "Theory" ∧ r.rtype = "Lab") := by
          rintro ⟨hth, _⟩
          rw [hpr] at hth
          exact absurd hth (by decide)
        rw [if_neg hnot, if_pos ⟨hpr, hcl⟩, decide_eq_true_eq] at hbody
        exact hbody rfl }

/-- Witness for C7: the Theory item of the two-subject demo run sits in a
compatible room. -/
theorem room_type_soundness_witness :
    demoTheoryItem ∈ demoSched ∧
    (∃ s ∈ [demoTheory, demoPractical], ∃ r ∈ [demoClassroom, demoLab],
      demoTheoryItem.subject_id = s.id ∧ demoTheoryItem.room_id = r.id ∧
      ¬(s.stype = "Theory" ∧ r.rtype = "Lab") ∧
      ¬(s.stype = "Practical" ∧ r.rtype = "Classroom")) :=
  ⟨by decide,
    room_type_soundness freshGenState [demoTheory, demoPractical] [demoClassroom, demoLab]
      1 1 (solverOf demoDayA demoRoomA) demoSched rfl
      (by intro dA rA h; cases h; decide) demoTheoryItem (by decide)⟩

/-- C6. When the resolved allow-multiple-exams setting is false, no two
distinct items of a generated schedule share both the exam date and the
room (subject and room ids assumed pairwise distinct, as database
primary keys); and when the setting is true the compiled model drops the
double-booking family entirely. -/
theorem no_double_booking (st : GenState) (subs : List Subject)
    (rooms : List Room) (sd ed : Nat) (solver : Solver) (sched : List ScheduleItem)
    (h1 : generate_schedule st subs rooms sd ed solver = .ok sched)
    (hsound : ∀ dA rA, solver (buildModel st subs rooms sd ed) = .sat dA rA →
      satisfiesModel (buildModel st subs rooms sd ed) dA rA = true)
    (hallow : readOr false st.allow_multiple_exams_var = false)
    (hsubids : (subs.map Subject.id).Nodup)
    (hroomids : (rooms.map Room.id).Nodup)
    (i j : Nat) (hi : i < sched.length) (hj : j < sched.length) (hij : i ≠ j) :
    ¬((sched.get ⟨i, hi⟩).exam_date = (sched.get ⟨j, hj⟩).exam_date ∧
      (sched.get ⟨i, hi⟩).room_id = (sched.get ⟨j, hj⟩).room_id) ∧
    (∀ (m : CpModelData) (dA rA : Nat → Nat), m.allow_multiple_exams = true →
      satisfiesModel m dA rA = (domainsOk m dA rA && roomTypeOk m rA && gapsOk m dA)) := by
  constructor
  · rintro ⟨hdate, hroom⟩
    obtain ⟨hok, dayA, roomA, hsat, hmat⟩ := generate_schedule_ok_inv h1
    obtain ⟨hdom, hroomt, hconf, hgaps⟩ := satisfiesModel_parts (hsound dayA roomA hsat)
    have hconf' := hconf hallow
    obtain ⟨hlen, hall⟩ := materializeAll_ok hmat
    have hilt : i < subs.length := by rw [← hlen]; exact hi
    have hjlt : j < subs.length := by rw [← hlen]; exact hj
    obtain ⟨si, itemi, hsi, hmii, houti⟩ := hall i hilt
    obtain ⟨sj, itemj, hsj, hmij, houtj⟩ := hall j hjlt
    obtain ⟨di, ri, hdi, hri, heqi⟩ := materializeItem_ok hmii
    obtain ⟨dj, rj, hdj, hrj, heqj⟩ := materializeItem_ok hmij
    have hdi' : (buildDays sd ed).get? (dayA si.id) = some di := hdi
    have hdj' : (buildDays sd ed).get? (dayA sj.id) = some dj := hdj
    have hri' : rooms.get? (roomA si.id) = some ri := hri
    have hrj' : rooms.get? (roomA sj.id) = some rj := hrj
    have hgeti : sched.get ⟨i, hi⟩ = itemi := by
      have h0 := List.get?_eq_get hi
      rw [houti] at h0
      exact (Option.some.inj h0).symm
    have hgetj : sched.get ⟨j, hj⟩ = itemj := by
      have h0 := List.get?_eq_get hj
      rw [houtj] at h0
      exact (Option.some.inj h0).symm
    rw [hgeti, hgetj, heqi, heqj] at hdate hroom
    dsimp only at hdate hroom
    -- distinct subjects have distinct ids
    obtain ⟨hilt', hgi⟩ := List.get?_eq_some.mp hsi
    obtain ⟨hjlt', hgj⟩ := List.get?_eq_some.mp hsj
    have hids : si.id ≠ sj.id := by
      have hne := nodup_map_get_ne Subject.id hsubids hilt' hjlt' hij
      rw [hgi, hgj] at hne
      exact hne
    -- equal dates force equal day indices (day list has no duplicates)
    have hdays_nodup : (buildDays sd ed).Nodup := buildDays_nodup sd ed
    have hdj'' : (buildDays sd ed).get? (dayA sj.id) = some di := by
      rw [← hdate] at hdj'
      exact hdj'
    have hdayeq : dayA si.id = dayA sj.id := get?_inj_of_nodup hdays_nodup hdi' hdj''
    -- equal room ids force equal room indices (room ids have no duplicates)
    have hmapi : (rooms.map Room.id).get? (roomA si.id) = some ri.id := by
      rw [List.get?_map, hri']
      rfl
    have hmapj : (rooms.map Room.id).get? (roomA sj.id) = some ri.id := by
      rw [List.get?_map, hrj', hroom]
      rfl
    have hroomeq : roomA si.id = roomA sj.id := get?_inj_of_nodup hroomids hmapi hmapj
    -- contradicts the no-double-booking constraint for this pair
    rw [conflictFree, List.all_eq_true] at hconf'
    have hrow := hconf' si (List.get?_mem hsi)
    rw [List.all_eq_true] at hrow
    have hbody := hrow sj (List.get?_mem hsj)
    rw [if_pos hids] at hbody
    simp only [Bool.not_eq_true', Bool.and_eq_false_iff, decide_eq_false_iff_not] at hbody
    rcases hbody with hc | hc
    · exact hc hdayeq
    · exact hc hroomeq
  · intro m dA rA hallowm
    rw [satisfiesModel, hallowm]
    simp [Bool.and_assoc]

/-- Witness for C6: in the two-subject demo run with double-booking
forbidden, the two produced items do not share date and room. -/
theorem no_double_booking_witness :
    readOr false freshGenState.allow_multiple_exams_var = false ∧
    ¬(demoTheoryItem.exam_date = demoPracticalItem.exam_date ∧
      demoTheoryItem.room_id = demoPracticalItem.room_id) :=
  ⟨rfl,
    (no_double_booking freshGenState [demoTheory, demoPractical] [demoClassroom, demoLab]
      1 1 (solverOf demoDayA demoRoomA) demoSched rfl
      (by intro dA rA h; cases h; decide) rfl (by decide) (by decide)
      0 1 (by decide) (by decide) (by decide)).1⟩

/-- C9. A generated schedule has exactly one item per selected subject, in
order; its exam date is the day-list entry at the subject's solved day
index, its room fields come from the room-list entry at the solved room
index, and its start and end times are the two halves of the single fixed
per-kind time window (Theory window when the subject kind is Theory, the
Practical window otherwise). -/
theorem materialization_spec (st : GenState) (subs : List Subject)
    (rooms : List Room) (sd ed : Nat) (solver : Solver) (sched : List ScheduleItem)
    (dayA roomA : Nat → Nat)
    (h1 : generate_schedule st subs rooms sd ed solver = .ok sched)
    (h2 : solver (buildModel st subs rooms sd ed) = .sat dayA roomA)
    (i : Nat) (hi : i < subs.length) :
    sched.length = subs.length ∧
    ∃ s d r, subs.get? i = some s ∧
      (buildDays sd ed).get? (dayA s.id) = some d ∧
      rooms.get? (roomA s.id) = some r ∧
      sched.get? i = some
        { subject_id := s.id, subject_code := s.code, subject_name := s.name,
          room_id := r.id, room_name := r.name, exam_date := d,
          start_time := (splitTimeSlot (timeSlotFor st s)).1,
          end_time := (splitTimeSlot (timeSlotFor st s)).2 } ∧
      timeSlotFor st s = (if s.stype = "Theory"
        then readOr "09:00 AM - 12:00 PM" st.theory_time_var
        else readOr "02:00 PM - 05:00 PM" st.practical_time_var) := by
  obtain ⟨hok, dayA', roomA', hsat, hmat⟩ := generate_schedule_ok_inv h1
  rw [h2] at hsat
  cases hsat
  obtain ⟨hlen, hall⟩ := materializeAll_ok hmat
  obtain ⟨s, item, hs, hmi, hout⟩ := hall i hi
  obtain ⟨d, r, hd, hr, heq⟩ := materializeItem_ok hmi
  subst heq
  exact ⟨hlen, s, d, r, hs, hd, hr, hout, rfl⟩

/-- Witness for C9 at index 0 of the two-subject demo run. -/
theorem materialization_spec_witness :
    0 < ([demoTheory, demoPractical] : List Subject).length ∧
    (demoSched.length = ([demoTheory, demoPractical] : List Subject).length ∧
     ∃ s d r, ([demoTheory, demoPractical] : List Subject).get? 0 = some s ∧
      (buildDays 1 1).get? (demoDayA s.id) = some d ∧
      ([demoClassroom, demoLab] : List Room).get? (demoRoomA s.id) = some r ∧
      demoSched.get? 0 = some
        { subject_id := s.id, subject_code := s.code, subject_name := s.name,
          room_id := r.id, room_name := r.name, exam_date := d,
          start_time := (splitTimeSlot (timeSlotFor freshGenState s)).1,
          end_time := (splitTimeSlot (timeSlotFor freshGenState s)).2 } ∧
      timeSlotFor freshGenState s = (if s.stype = "Theory"
        then readOr "09:00 AM - 12:00 PM" freshGenState.theory_time_var
        else readOr "02:00 PM - 05:00 PM" freshGenState.practical_time_var)) :=
  ⟨by decide,
    materialization_spec freshGenState [demoTheory, demoPractical] [demoClassroom, demoLab]
      1 1 (solverOf demoDayA demoRoomA) demoSched demoDayA demoRoomA rfl rfl 0 (by decide)⟩

/-- C10. An absent or raising settings attribute is replaced by its fixed
default: double-booking is forbidden (allow_multiple_exams false), Theory
exams get the 09:00 AM - 12:00 PM window, Practical exams the
02:00 PM - 05:00 PM window. -/
theorem settings_defaults (st : GenState) (subs : List Subject)
    (rooms : List Room) (sd ed : Nat) (s : Subject) :
    ((st.allow_multiple_exams_var = .absent ∨ st.allow_multiple_exams_var = .raising) →
      (buildModel st subs rooms sd ed).allow_multiple_exams = false) ∧
    ((st.theory_time_var = .absent ∨ st.theory_time_var = .raising) →
      s.stype = "Theory" → timeSlotFor st s = "09:00 AM - 12:00 PM") ∧
    ((st.practical_time_var = .absent ∨ st.practical_time_var = .raising) →
      s.stype = "Practical" → timeSlotFor st s = "02:00 PM - 05:00 PM") := by
  refine ⟨?_, ?_, ?_⟩
  · rintro (h | h) <;>
      show readOr false st.allow_multiple_exams_var = false <;> rw [h] <;> rfl
  · rintro (h | h) hth <;> rw [timeSlotFor, if_pos hth, h] <;> rfl
  · have hne : s.stype = "Practical" → ¬(s.stype = "Theory") := by
      intro hpr c
      rw [hpr] at c
      exact absurd c (by decide)
    rintro (h | h) hpr <;> rw [timeSlotFor, if_neg (hne hpr), h] <;> rfl

/-- Witness for C10 with the fresh state (every attribute absent). -/
theorem settings_defaults_witness :
    (freshGenState.allow_multiple_exams_var = .absent ∨
      freshGenState.allow_multiple_exams_var = .raising) ∧
    (buildModel freshGenState [demoTheory] [demoClassroom] 1 1).allow_multiple_exams = false ∧
    timeSlotFor freshGenState demoTheory = "09:00 AM - 12:00 PM" ∧
    timeSlotFor freshGenState demoPractical = "02:00 PM - 05:00 PM" := by
  have hth := settings_defaults freshGenState [demoTheory] [demoClassroom] 1 1 demoTheory
  have hpr := settings_defaults freshGenState [demoTheory] [demoClassroom] 1 1 demoPractical
  exact ⟨Or.inl rfl, hth.1 (Or.inl rfl), hth.2.1 (Or.inl rfl) rfl, hpr.2.2 (Or.inl rfl) rfl⟩

/-- The compiled gap family coincides with the policy exactly as the spec
words it: constraints only between same-difficulty pairs (Hard with Hard,
Medium with Medium); a Hard/Medium cross pair or any pair involving an Easy
subject is left unconstrained. -/
theorem gapsOk_iff_specGapsOk (m : CpModelData) (dA : Nat → Nat) :
    gapsOk m dA = true ↔ specGapsOk m dA := by
  constructor
  · intro h
    rw [gapsOk, List.all_eq_true] at h
    constructor
    · intro s1 h1m s2 h2m hne hd1 hd2 gg hgg hggpos
      have hrow := h s1 h1m
      rw [List.all_eq_true] at hrow
      have hbody := hrow s2 h2m
      rw [if_pos hne, if_pos ⟨hd1, hd2⟩] at hbody
      simp only [hgg] at hbody
      rw [if_pos hggpos] at hbody
      rw [Bool.or_eq_true, decide_eq_true_eq, decide_eq_true_eq] at hbody
      exact hbody
    · intro s1 h1m s2 h2m hne hd1 hd2 gg hgg hggpos
      have hrow := h s1 h1m
      rw [List.all_eq_true] at hrow
      have hbody := hrow s2 h2m
      have hnothard : ¬(s1.difficulty = "Hard" ∧ s2.difficulty = "Hard") := by
        rintro ⟨c, _⟩
        rw [hd1] at c
        exact absurd c (by decide)
      rw [if_pos hne, if_neg hnothard, if_pos ⟨hd1, hd2⟩] at hbody
      simp only [hgg] at hbody
      rw [if_pos hggpos] at hbody
      rw [Bool.or_eq_true, decide_eq_true_eq, decide_eq_true_eq] at hbody
      exact hbody
  · intro h
    rw [gapsOk, List.all_eq_true]
    intro s1 h1m
    rw [List.all_eq_true]
    intro s2 h2m
    by_cases hne : s1.id ≠ s2.id
    · rw [if_pos hne]
      by_cases hh : s1.difficulty = "Hard" ∧ s2.difficulty = "Hard"
      · rw [if_pos hh]
        cases hgg : m.hard_gap with
        | none => rfl
        | some gg =>
          show (if gg > 0 then
              decide ((dA s1.id : Int) + gg ≤ (dA s2.id : Int)) ||
                decide ((dA s2.id : Int) + gg ≤ (dA s1.id : Int))
            else true) = true
          by_cases hp : gg > 0
          · rw [if_pos hp, Bool.or_eq_true, decide_eq_true_eq, decide_eq_true_eq]
            exact h.1 s1 h1m s2 h2m hne hh.1 hh.2 gg hgg hp
          · rw [if_neg hp]
      · rw [if_neg hh]
        by_cases hm : s1.difficulty = "Medium" ∧ s2.difficulty = "Medium"
        · rw [if_pos hm]
          cases hgg : m.medium_gap with
          | none => rfl
          | some gg =>
            show (if gg > 0 then
                decide ((dA s1.id : Int) + gg ≤ (dA s2.id : Int)) ||
                  decide ((dA s2.id : Int) + gg ≤ (dA s1.id : Int))
              else true) = true
            by_cases hp : gg > 0
            · rw [if_pos hp, Bool.or_eq_true, decide_eq_true_eq, decide_eq_true_eq]
              exact h.2 s1 h1m s2 h2m hne hm.1 hm.2 gg hgg hp
            · rw [if_neg hp]
        · rw [if_neg hm]
    · rw [if_neg hne]

/-- C5. For a pair of distinct selected subjects that are both rated dif
(dif being Hard, gap from hard_gap_var, or Medium, gap from medium_gap_var),
a positive gap setting forces their materialized exam dates at least that
many days apart; and the compiled gap family constrains exactly the
same-difficulty pairs the spec names, nothing else (no Hard/Medium cross
pair, no pair involving Easy). -/
theorem difficulty_gap_soundness (st : GenState) (subs : List Subject)
    (rooms : List Room) (sd ed : Nat) (solver : Solver) (sched : List ScheduleItem)
    (h1 : generate_schedule st subs rooms sd ed solver = .ok sched)
    (hsound : ∀ dA rA, solver (buildModel st subs rooms sd ed) = .sat dA rA →
      satisfiesModel (buildModel st subs rooms sd ed) dA rA = true)
    (dif : String) (g : Int)
    (hdif : dif = "Hard" ∨ dif = "Medium")
    (hgv : (if dif = "Hard" then st.hard_gap_var else st.medium_gap_var) = .val g)
    (hgpos : 0 < g)
    (i j : Nat) (hi : i < sched.length) (hj : j < sched.length)
    (si sj : Subject) (hsi : subs.get? i = some si) (hsj : subs.get? j = some sj)
    (hne : si.id ≠ sj.id) (hdi : si.difficulty = dif) (hdj : sj.difficulty = dif) :
    g ≤ |((sched.get ⟨i, hi⟩).exam_date : Int) - ((sched.get ⟨j, hj⟩).exam_date : Int)| ∧
    (∀ (m : CpModelData) (dA : Nat → Nat), gapsOk m dA = true ↔ specGapsOk m dA) := by
  refine ⟨?_, fun m dA => gapsOk_iff_specGapsOk m dA⟩
  obtain ⟨hok, dayA, roomA, hsat, hmat⟩ := generate_schedule_ok_inv h1
  obtain ⟨hdom, _, _, hgaps⟩ := satisfiesModel_parts (hsound dayA roomA hsat)
  obtain ⟨hlen, hall⟩ := materializeAll_ok hmat
  have hilt : i < subs.length := by rw [← hlen]; exact hi
  have hjlt : j < subs.length := by rw [← hlen]; exact hj
  obtain ⟨si', itemi, hsi', hmii, houti⟩ := hall i hilt
  obtain ⟨sj', itemj, hsj', hmij, houtj⟩ := hall j hjlt
  rw [hsi] at hsi'
  cases hsi'
  rw [hsj] at hsj'
  cases hsj'
  obtain ⟨di, ri, hdi_, hri_, heqi⟩ := materializeItem_ok hmii
  obtain ⟨dj, rj, hdj_, hrj_, heqj⟩ := materializeItem_ok hmij
  have hdi' : (buildDays sd ed).get? (dayA si.id) = some di := hdi_
  have hdj' : (buildDays sd ed).get? (dayA sj.id) = some dj := hdj_
  have hgeti : sched.get ⟨i, hi⟩ = itemi := by
    have h0 := List.get?_eq_get hi
    rw [houti] at h0
    exact (Option.some.inj h0).symm
  have hgetj : sched.get ⟨j, hj⟩ = itemj := by
    have h0 := List.get?_eq_get hj
    rw [houtj] at h0
    exact (Option.some.inj h0).symm
  rw [hgeti, hgetj, heqi, heqj]
  dsimp only
  rw [domainsOk, List.all_eq_true] at hdom
  have hbi0 := hdom si (List.get?_mem hsi)
  rw [Bool.and_eq_true, decide_eq_true_eq, decide_eq_true_eq] at hbi0
  have hbj0 := hdom sj (List.get?_mem hsj)
  rw [Bool.and_eq_true, decide_eq_true_eq, decide_eq_true_eq] at hbj0
  have hbi : dayA si.id < (buildDays sd ed).length := hbi0.1
  have hbj : dayA sj.id < (buildDays sd ed).length := hbj0.1
  rw [gapsOk, List.all_eq_true] at hgaps
  have hrow := hgaps si (List.get?_mem hsi)
  rw [List.all_eq_true] at hrow
  have hbody := hrow sj (List.get?_mem hsj)
  rcases hdif with rfl | rfl
  · rw [if_pos rfl] at hgv
    rw [if_pos hne, if_pos ⟨hdi, hdj⟩] at hbody
    have hhg : (buildModel st subs rooms sd ed).hard_gap = some g := by
      show attrValue st.hard_gap_var = some g
      rw [hgv]
      rfl
    simp only [hhg] at hbody
    rw [if_pos hgpos] at hbody
    rw [Bool.or_eq_true, decide_eq_true_eq, decide_eq_true_eq] at hbody
    exact gap_from_disjunction (buildDays_sorted sd ed) hbj hbi hgpos hbody hdi' hdj'
  · rw [if_neg (by decide)] at hgv
    have hnothard : ¬(si.difficulty = "Hard" ∧ sj.difficulty = "Hard") := by
      rintro ⟨c, _⟩
      rw [hdi] at c
      exact absurd c (by decide)
    rw [if_pos hne, if_neg hnothard, if_pos ⟨hdi, hdj⟩] at hbody
    have hmg : (buildModel st subs rooms sd ed).medium_gap = some g := by
      show attrValue st.medium_gap_var = some g
      rw [hgv]
      rfl
    simp only [hmg] at hbody
    rw [if_pos hgpos] at hbody
    rw [Bool.or_eq_true, decide_eq_true_eq, decide_eq_true_eq] at hbody
    exact gap_from_disjunction (buildDays_sorted sd ed) hbj hbi hgpos hbody hdi' hdj'

/-- Witness for C5: two Hard subjects with hard gap 2, scheduled on dates 1
and 3 by a satisfying backend answer. -/
theorem difficulty_gap_soundness_witness :
    demoGapState.hard_gap_var = .val 2 ∧
    demoHard1.difficulty = "Hard" ∧
    demoHard2.difficulty = "Hard" ∧
    (2 : Int) ≤ |((1 : Nat) : Int) - ((3 : Nat) : Int)| :=
  ⟨rfl, rfl, rfl,
    (difficulty_gap_soundness demoGapState [demoHard1, demoHard2] [demoClassroom]
      1 9 (solverOf demoDay5A demoRoom5A)
      [⟨3, "H1", "Hard One", 1, "Room A", 1, "09:00 AM", "12:00 PM"⟩,
       ⟨4, "H2", "Hard Two", 1, "Room A", 3, "09:00 AM", "12:00 PM"⟩]
      rfl (by intro dA rA hh; cases hh; decide) "Hard" 2 (Or.inl rfl) rfl (by decide)
      0 1 (by decide) (by decide) demoHard1 demoHard2 rfl rfl (by decide) rfl rfl).1⟩

/-! ### Sort key lemmas -/

theorem charListLE_total : ∀ a b, (charListLE a b || charListLE b a) = true := by
  intro a
  induction a with
  | nil => intro b; rfl
  | cons x xs ih =>
    intro b
    cases b with
    | nil => simp [charListLE]
    | cons y ys =>
      simp only [charListLE]
      rcases Nat.lt_trichotomy x.toNat y.toNat with h | h | h
      · rw [if_pos h, Bool.true_or]
      · rw [if_neg (by omega), if_pos h, if_neg (by omega), if_pos (by omega)]
        exact ih ys
      · rw [if_neg (by omega), if_neg (by omega), if_pos h]
        rfl

theorem charListLE_trans :
    ∀ a b c, charListLE a b = true → charListLE b c = true → charListLE a c = true := by
  intro a
  induction a with
  | nil => intro b c _ _; rfl
  | cons x xs ih =>
    intro b c h1 h2
    cases b with
    | nil => simp [charListLE] at h1
    | cons y ys =>
      cases c with
      | nil => simp [charListLE] at h2
      | cons z zs =>
        simp only [charListLE] at h1 h2 ⊢
        by_cases hxy : x.toNat < y.toNat
        · rw [if_pos hxy] at h1
          by_cases hyz : y.toNat < z.toNat
          · rw [if_pos (by omega : x.toNat < z.toNat)]
          · by_cases hyz2 : y.toNat = z.toNat
            · rw [if_pos (by omega : x.toNat < z.toNat)]
            · rw [if_neg hyz, if_neg hyz2] at h2
              exact absurd h2 (by decide)
        · by_cases hxy2 : x.toNat = y.toNat
          · rw [if_neg hxy, if_pos hxy2] at h1
            by_cases hyz : y.toNat < z.toNat
            · rw [if_pos (by omega : x.toNat < z.toNat)]
            · by_cases hyz2 : y.toNat = z.toNat
              · rw [if_neg hyz, if_pos hyz2] at h2
                rw [if_neg (by omega : ¬x.toNat < z.toNat),
                  if_pos (by omega : x.toNat = z.toNat)]
                exact ih ys zs h1 h2
              · rw [if_neg hyz, if_neg hyz2] at h2
                exact absurd h2 (by decide)
          · rw [if_neg hxy, if_neg hxy2] at h1
            exact absurd h1 (by decide)

theorem scheduleKeyLE_trans :
    ∀ x y z, scheduleKeyLE x y = true → scheduleKeyLE y z = true →
      scheduleKeyLE x z = true := by
  intro x y z h1 h2
  simp only [scheduleKeyLE, Bool.or_eq_true, Bool.and_eq_true, decide_eq_true_eq] at h1 h2 ⊢
  rcases h1 with h1 | ⟨h1e, h1s⟩ <;> rcases h2 with h2 | ⟨h2e, h2s⟩
  · left; omega
  · left; omega
  · left; omega
  · right
    exact ⟨by omega, charListLE_trans _ _ _ h1s h2s⟩

theorem scheduleKeyLE_total :
    ∀ x y, (scheduleKeyLE x y || scheduleKeyLE y x) = true := by
  intro x y
  simp only [scheduleKeyLE, Bool.or_eq_true, Bool.and_eq_true, decide_eq_true_eq]
  rcases Nat.lt_trichotomy x.exam_date y.exam_date with h | h | h
  · exact Or.inl (Or.inl h)
  · have htot := charListLE_total x.start_time.data y.start_time.data
    rw [Bool.or_eq_true] at htot
    rcases htot with hs | hs
    · exact Or.inl (Or.inr ⟨h, hs⟩)
    · exact Or.inr (Or.inr ⟨h.symm, hs⟩)
  · exact Or.inr (Or.inl h)

unseal List.merge List.mergeSort in
/-- C4 counterexample. The issued claim says the schedule handed over is
sorted by (exam date, start time) with start time ordered as a time of day.
On one Theory and one Practical subject scheduled the same day with the
default windows, the sorted preview puts the 02:00 PM practical exam before
the 09:00 AM theory exam, because the sort key compares the start-time
strings lexicographically and the string 02:00 PM precedes 09:00 AM. -/
theorem preview_not_time_of_day_sorted_counterexample :
    generate_preview freshGenState [demoTheory, demoPractical] [demoClassroom, demoLab] 1 1
      (solverOf demoDayA demoRoomA) = .ok [demoPracticalItem, demoTheoryItem] ∧
    satisfiesModel (buildModel freshGenState [demoTheory, demoPractical]
      [demoClassroom, demoLab] 1 1) demoDayA demoRoomA = true ∧
    demoPracticalItem.exam_date = demoTheoryItem.exam_date ∧
    timeOfDayMinutes demoTheoryItem.start_time < timeOfDayMinutes demoPracticalItem.start_time :=
  ⟨rfl, by decide, rfl, by decide⟩

/-- C4 amended. The collection generate_preview displays is sorted
ascending by the Python tuple key (exam_date, start_time), where the start
time is compared as a string (lexicographically by code point), not as a
time of day; it is the stable merge sort of the materialized schedule under
that key. -/
theorem preview_sorted_by_string_key (st : GenState) (subs : List Subject)
    (rooms : List Room) (sd ed : Nat) (solver : Solver) (sched : List ScheduleItem)
    (h : generate_preview st subs rooms sd ed solver = .ok sched) :
    List.Pairwise (fun x y => scheduleKeyLE x y = true) sched ∧
    ∃ base, generate_schedule st subs rooms sd ed solver = .ok base ∧
      sched = sortSchedule base := by
  rw [generate_preview] at h
  cases hg : generate_schedule st subs rooms sd ed solver with
  | error e => rw [hg] at h; simp [Except.map] at h
  | ok base =>
    rw [hg] at h
    simp only [Except.map] at h
    cases h
    refine ⟨?_, base, rfl, rfl⟩
    exact List.sorted_mergeSort
      (fun a b c hab hbc => scheduleKeyLE_trans a b c hab hbc)
      (fun a b => scheduleKeyLE_total a b) base

unseal List.merge List.mergeSort in
/-- Witness for C4 amended on the two-subject demo run. -/
theorem preview_sorted_by_string_key_witness :
    List.Pairwise (fun x y => scheduleKeyLE x y = true)
      [demoPracticalItem, demoTheoryItem] ∧
    ∃ base, generate_schedule freshGenState [demoTheory, demoPractical]
        [demoClassroom, demoLab] 1 1 (solverOf demoDayA demoRoomA) = .ok base ∧
      [demoPracticalItem, demoTheoryItem] = sortSchedule base :=
  preview_sorted_by_string_key freshGenState [demoTheory, demoPractical]
    [demoClassroom, demoLab] 1 1 (solverOf demoDayA demoRoomA)
    [demoPracticalItem, demoTheoryItem] rfl

end ExamMaker
